import Mathlib

/-!
# Verification of the pipdeptree dependency-graph core

A shallow embedding, in Lean 4, of the dependency-graph model and the
algorithms of pipdeptree: package discovery deduplication
(`_discovery.py`), the validator's conflict and cycle passes
(`_validate.py`), and the text, nested-JSON, Mermaid and Graphviz
renderers (`_render/`).  Pure functions of the Python source become Lean
functions; the few stateful loops (the DFS of `cyclic_deps`, the
renderers' accumulators) become explicit state passing; recursion whose
termination is not structural is driven by an explicit fuel parameter
returning `Option`, with `none` marking fuel exhaustion.

The `_models` package (PackageDAG, DistPackage, ReqPackage) is not part
of the sources embedded here; the handful of its operations that the
embedded files call (`sort`, `get_children`, `get_node_as_parent`,
`ReqPackage.is_conflicting`, name canonicalization) are modelled from
the specification, each marked `Modelled from the spec:` in its doc
comment.
-/

namespace Pipdeptree

/-! ## Data model -/

/-- An installed package: normalized key, display name, version string.
Modelled from the spec: §3 InstalledPackage — normalized key, human-facing
project name, version string. -/
structure DistPackage where
  key : String
  project_name : String
  version : String
  deriving Repr, DecidableEq

/-- A version constraint.  Modelled from the spec: §4.2 treats the
constraint as an opaque predicate evaluated against a version string; a
minimal `>=` comparator over dotted numeral versions is enough for the
spec's examples (">=2.0" against "1.0" and "2.5"). -/
inductive VersionConstraint where
  | ge (lo : List Nat)
  deriving Repr, DecidableEq

/-- A decimal digit's value, if the character is one. -/
def versionDigit (c : Char) : Option Nat :=
  if c.isDigit then some (c.toNat - 48) else none

/-- Accumulate a numeral left to right; any non-digit voids the part. -/
def charsToNatGo : List Char → Nat → Option Nat
  | [], acc => some acc
  | c :: cs, acc =>
    match versionDigit c with
    | none => none
    | some d => charsToNatGo cs (acc * 10 + d)

/-- `toNat?` over a character list: `none` on empty or non-numeral. -/
def charsToNatOpt : List Char → Option Nat
  | [] => none
  | l => charsToNatGo l 0

/-- Split a character list on `.`, keeping empty parts. -/
def splitOnDot : List Char → List Char → List (List Char)
  | [], acc => [acc.reverse]
  | c :: cs, acc =>
    if c = '.' then acc.reverse :: splitOnDot cs []
    else splitOnDot cs (c :: acc)

/-- Parse a dotted numeral version string, e.g. "2.5" to [2, 5],
unparseable parts reading as 0.  Modelled from the spec: §4.2
version-comparison semantics. -/
def parseVersion (s : String) : List Nat :=
  (splitOnDot s.data []).map (fun part => (charsToNatOpt part).getD 0)

/-- Lexicographic `≤` on dotted version components, missing components
reading as zero.  Modelled from the spec: §4.2. -/
def versionLe : List Nat → List Nat → Bool
  | [], _ => true
  | a :: as, [] => (a == 0) && versionLe as []
  | a :: as, b :: bs =>
    if a < b then true
    else if b < a then false
    else versionLe as bs

/-- Whether a version string satisfies a constraint.  Modelled from the
spec: §4.2 — absence of a constraint is handled by the caller. -/
def VersionConstraint.satisfiedBy : VersionConstraint → String → Bool
  | .ge lo, v => versionLe lo (parseVersion v)

/-- A requirement edge as seen from the dependent's side: target key,
display name, optional constraint, and the resolved installed package
(`none` = missing).  Modelled from the spec: §3 RequirementEdge. -/
structure ReqPackage where
  key : String
  project_name : String
  version_spec : Option VersionConstraint
  dist : Option DistPackage
  deriving Repr, DecidableEq

/-- Missing flag: a requirement edge with no resolved node.
Modelled from the spec: §3 — resolved/missing flag. -/
def ReqPackage.is_missing (r : ReqPackage) : Bool :=
  r.dist.isNone

/-- `isConflicting(edge)`.  Modelled from the spec: §4.2 — true iff the
edge is resolved (not missing) AND a constraint is present AND the
resolved target's version does not satisfy that constraint. -/
def ReqPackage.is_conflicting (r : ReqPackage) : Bool :=
  match r.dist, r.version_spec with
  | some d, some c => !(c.satisfiedBy d.version)
  | _, _ => false

/-- Either node kind, as `cyclic_deps` mixes `DistPackage` roots with
`ReqPackage` path members (`Package` in `_validate.py`'s annotations). -/
inductive Package where
  | dist (d : DistPackage)
  | req (r : ReqPackage)
  deriving Repr, DecidableEq

/-- The normalized key of either node kind. -/
def Package.key : Package → String
  | .dist d => d.key
  | .req r => r.key

/-- The display name of either node kind. -/
def Package.project_name : Package → String
  | .dist d => d.project_name
  | .req r => r.project_name

/-- `PackageDAG`: the mapping from installed package to its ordered
requirement edges, kept as an insertion-ordered association list.
Modelled from the spec: §3 DependencyGraph. -/
def PackageDAG := List (DistPackage × List ReqPackage)

/-- `tree.get_node_as_parent(key)`: the installed node with that key, if
any.  Modelled from the spec: §4.2 lookup by normalized key. -/
def getNodeAsParent (tree : PackageDAG) (key : String) : Option DistPackage :=
  (List.find? (fun entry => entry.1.key = key) tree).map (fun entry => entry.1)

/-- `tree.get(node)` by key: the requirement edges of the node with that
key.  Modelled from the spec: §4.2. -/
def getReqs (tree : PackageDAG) (key : String) : Option (List ReqPackage) :=
  (List.find? (fun entry => entry.1.key = key) tree).map (fun entry => entry.2)

/-- `tree.get_children(key)`: the node's edges, or the empty sequence if
the key has no node (never an error).  Modelled from the spec: §4.2. -/
def getChildren (tree : PackageDAG) (key : String) : List ReqPackage :=
  (getReqs tree key).getD []

/-! ## Discovery: `filter_valid_distributions` (`_discovery.py`) -/

/-- A raw distribution record as consumed by `filter_valid_distributions`:
name, version, and whether `has_valid_metadata` holds ("Name" present in
its metadata). -/
structure Distribution where
  name : String
  version : String
  valid : Bool
  deriving Repr, DecidableEq

/-- One lowercase step over a character, ASCII letters only, as name
canonicalization needs. -/
def lowerChar (c : Char) : Char := c.toLower

/-- Separator characters collapsed by name canonicalization. -/
def isSepChar (c : Char) : Bool := c = '-' || c = '_' || c = '.'

/-- Collapse every run of `-`, `_`, `.` to a single `-`; the flag says
whether the previous character was part of a separator run. -/
def collapseSepsAux (prevSep : Bool) : List Char → List Char
  | [] => []
  | c :: cs =>
    if isSepChar c then
      if prevSep then collapseSepsAux true cs
      else '-' :: collapseSepsAux true cs
    else c :: collapseSepsAux false cs

/-- Collapse every run of `-`, `_`, `.` to a single `-`. -/
def collapseSeps (l : List Char) : List Char :=
  collapseSepsAux false l

/-- `canonicalize_name`: lower-case and collapse separator runs.
Modelled from the spec: §4.1 normalization — lower-cased, runs of
`-`, `_`, `.` collapsed to a single separator. -/
def canonicalize_name (s : String) : String :=
  String.mk (collapseSeps (s.data.map lowerChar))

/-- The loop state of `filter_valid_distributions`: `seen_dists` (first
occurrence per normalized name) and
`first_seen_to_already_seen_dists_dict` (first-seen distribution to its
later duplicates, insertion-ordered). -/
structure FilterState where
  seenDists : List (String × Distribution)
  firstSeenToAlreadySeen : List (Distribution × List Distribution)
  dists : List Distribution
  deriving Repr

/-- `setdefault`-then-append on the duplicates dictionary: append `dup`
to the entry of `firstSeen`, creating the entry if absent. -/
def appendDup (dict : List (Distribution × List Distribution))
    (firstSeen dup : Distribution) : List (Distribution × List Distribution) :=
  match dict with
  | [] => [(firstSeen, [dup])]
  | entry :: rest =>
    if entry.1 = firstSeen then (entry.1, entry.2 ++ [dup]) :: rest
    else entry :: appendDup rest firstSeen dup

/-- One iteration of the `for dist in iterable_dists` loop of
`filter_valid_distributions` (`_discovery.py` lines 61-73). -/
def filterStep (shouldWarn : Bool) (st : FilterState) (dist : Distribution) :
    FilterState :=
  if !dist.valid then
    st
  else
    let normalizedName := canonicalize_name dist.name
    match List.find? (fun p => p.1 = normalizedName) st.seenDists with
    | none =>
      { st with seenDists := st.seenDists ++ [(normalizedName, dist)] }
    | some seenEntry =>
      if shouldWarn then
        { st with
          firstSeenToAlreadySeen := appendDup st.firstSeenToAlreadySeen seenEntry.2 dist }
      else
        st

/-- `filter_valid_distributions` (`_discovery.py` lines 52-87): runs the
loop and returns `list(first_seen_to_already_seen_dists_dict.keys())`,
as the source does on line 87. -/
def filter_valid_distributions (shouldWarn : Bool)
    (iterableDists : List Distribution) : List Distribution :=
  let final := iterableDists.foldl (filterStep shouldWarn) ⟨[], [], []⟩
  final.firstSeenToAlreadySeen.map (fun entry => entry.1)

/-! ## Validator: `conflicting_deps` (`_validate.py` lines 29-45) -/

/-- `conflicting_deps(tree)`: for every package, collect the requirement
edges `req` with `not req.is_conflicting()` (source line 43), keeping
only packages for which at least one edge was collected (the
`defaultdict` materializes a key only on first append). -/
def conflicting_deps (tree : PackageDAG) :
    List (DistPackage × List ReqPackage) :=
  (tree.map (fun entry =>
      (entry.1, entry.2.filter (fun req => !req.is_conflicting)))).filter
    (fun entry => !entry.2.isEmpty)

/-! ## Validator: `cyclic_deps` (`_validate.py` lines 59-97)

The Python `dfs` mutates a per-root `visited` set and a `cdeps` list;
here both are threaded explicitly and the recursion is driven by a fuel
parameter (`none` = fuel exhausted).  `dfsLoop` is the
`for req in reqs` loop, which keeps the mutated state across iterations
and returns as soon as a nested search succeeds. -/

/-- The `for req in reqs` loop of `dfs` (`_validate.py` lines 79-82),
parameterized by the nested search `step`: stop at the first successful
nested search, carrying the mutated `visited` set across iterations. -/
def dfsLoop (step : Package → List String → List Package →
    Option (Bool × List String × List Package)) :
    List ReqPackage → List String → List Package →
    Option (Bool × List String × List Package)
  | [], visited, cdeps => some (false, visited, cdeps)
  | req :: rest, visited, cdeps =>
    match step (.req req) visited cdeps with
    | none => none
    | some (true, visitedAfter, cdepsAfter) =>
      some (true, visitedAfter, cdepsAfter)
    | some (false, visitedAfter, cdepsAfter) =>
      dfsLoop step rest visitedAfter cdepsAfter

/-- One call of `dfs(root, current, visited, cdeps)`
(`_validate.py` lines 68-86), returning the Python result together with
the final `visited` and `cdeps` state.  On a successful loop iteration
the Python code appends `current` before returning (line 81). -/
def dfs (tree : PackageDAG) : Nat → DistPackage → Package → List String →
    List Package → Option (Bool × List String × List Package)
  | 0, _, _, _, _ => none
  | fuel + 1, root, current, visited, cdeps =>
    if current.key ∈ visited then
      if current.key = root.key then some (true, visited, cdeps ++ [current])
      else some (false, visited, cdeps)
    else
      let visitedNow := visited ++ [current.key]
      match getNodeAsParent tree current.key with
      | none => some (false, visitedNow, cdeps)
      | some _ =>
        match getReqs tree current.key with
        | none => some (false, visitedNow, cdeps)
        | some [] => some (false, visitedNow, cdeps)
        | some (req :: reqs) =>
          match dfsLoop (dfs tree fuel root) (req :: reqs) visitedNow cdeps with
          | none => none
          | some (true, visitedAfter, cdepsAfter) =>
            some (true, visitedAfter, cdepsAfter ++ [current])
          | some (false, visitedAfter, cdepsAfter) =>
            some (false, visitedAfter, cdepsAfter)

/-- The canonical fuel for `cyclic_deps`: the DFS nesting depth is
bounded by the number of graph nodes plus one, since every non-terminal
frame adds a distinct node key to `visited`. -/
def cyclicFuel (tree : PackageDAG) : Nat := tree.length + 1

/-- `cyclic_deps(tree)` (`_validate.py` lines 88-97): one DFS per root
with a fresh `visited`/`cdeps`, collecting the reversed `cdeps` of every
successful search. -/
def cyclic_deps (tree : PackageDAG) : List (List Package) :=
  tree.filterMap (fun entry =>
    match dfs tree (cyclicFuel tree) entry.1 (.dist entry.1) [] [] with
    | some (true, _, cdeps) => some cdeps.reverse
    | _ => none)

/-! ## Validator: `validate` (`_validate.py` lines 15-26) -/

/-- What a warning's deferred rendering closure was handed: either a
conflict dictionary (`render_conflicts_text` / `render_cycles_text`
applied to `conflicts`) or a cycle list (`render_cycles_text` applied to
`cycles`). -/
inductive WarningPayload where
  | conflictsPayload (c : List (DistPackage × List ReqPackage))
  | cyclesPayload (c : List (List Package))
  deriving Repr, DecidableEq

/-- `validate(tree)`: the sequence of warnings emitted, each as its
summary line and the argument passed to its rendering closure.  Mirrors
`_validate.py` lines 15-26: the conflict warning is emitted under
`if not conflicts`, and the cycle warning's closure is
`render_cycles_text(conflicts)`. -/
def validate (shouldWarn : Bool) (tree : PackageDAG) :
    List (String × WarningPayload) :=
  if shouldWarn then
    let conflicts := conflicting_deps tree
    let conflictEmissions :=
      if conflicts.isEmpty then
        [("Possibly conflicting dependencies found",
          WarningPayload.conflictsPayload conflicts)]
      else []
    let cycles := cyclic_deps tree
    let cycleEmissions :=
      if !cycles.isEmpty then
        [("Cyclic dependencies found", WarningPayload.conflictsPayload conflicts)]
      else []
    conflictEmissions ++ cycleEmissions
  else []

/-! ## Sorting (`tree.sort()`, from `_models`) -/

/-- Insert into a list sorted by `le` (insertion step). -/
def insertSorted {α : Type} (le : α → α → Bool) (x : α) : List α → List α
  | [] => [x]
  | y :: ys => if le x y then x :: y :: ys else y :: insertSorted le x ys

/-- Insertion sort by a boolean `le`. -/
def sortByLe {α : Type} (le : α → α → Bool) (l : List α) : List α :=
  l.foldr (insertSorted le) []

/-- Boolean `≤` on strings through `Ord String`. -/
def strLe (a b : String) : Bool := (compare a b).isLE

/-- `tree.sort(reverse=...)`.  Modelled from the spec: §4.2 `sorted()` —
a new graph with nodes ordered by normalized key ascending (or
descending, parameterized) and each node's edges re-ordered the same way
by target normalized key. -/
def sortPackageDAG (reverse : Bool) (tree : PackageDAG) : PackageDAG :=
  let nodeLe := fun (x y : DistPackage × List ReqPackage) =>
    if reverse then strLe y.1.key x.1.key else strLe x.1.key y.1.key
  let edgeLe := fun (x y : ReqPackage) =>
    if reverse then strLe y.key x.key else strLe x.key y.key
  (sortByLe nodeLe tree).map (fun entry => (entry.1, sortByLe edgeLe entry.2))

/-! ## Text renderer (`_render/text.py`) -/

/-- `depth <= max_depth` with `max_depth` possibly `float("inf")`
(`none` here means unbounded). -/
def depthLe (depth : Nat) : Option Nat → Bool
  | none => true
  | some maxDepth => decide (depth ≤ maxDepth)

/-- The keys that occur as a requirement-edge target anywhere in the
tree (`branch_keys`, `text.py` line 30). -/
def branchKeys (tree : PackageDAG) : List String :=
  ((tree.map (fun entry => entry.2)).flatten).map (fun r => r.key)

/-- The top-level node selection of `render_text` (`text.py` lines
28-33): sort the tree, then under `if list_all:` keep only the nodes
whose key is in no requirement edge. -/
def textTopLevelNodes (tree : PackageDAG) (listAll : Bool) : List DistPackage :=
  let sorted := sortPackageDAG false tree
  let nodes := sorted.map (fun entry => entry.1)
  if listAll then
    nodes.filter (fun p => !((branchKeys sorted).contains p.key))
  else nodes

/-- `aux` of `_render_text_with_unicode` (`text.py` lines 52-111),
reduced to the project names it renders, in output order; the
bullet/prefix cosmetics carry no traversal decision and are omitted.
The child comprehension (lines 94-108) recurses into a child under
`c.project_name in cur_chain or depth <= max_depth`, with chain
`[*cur_chain, node.project_name]` and depth `depth + 1`.  Fuel-driven:
`none` = fuel exhausted. -/
def auxUnicode (tree : PackageDAG) (maxDepth : Option Nat) :
    Nat → Package → List String → Nat → Option (List String)
  | 0, _, _, _ => none
  | fuel + 1, node, curChain, depth =>
    match ((getChildren tree node.key).filter
        (fun c => curChain.contains c.project_name || depthLe depth maxDepth)).mapM
        (fun c => auxUnicode tree maxDepth fuel (.req c)
          (curChain ++ [node.project_name]) (depth + 1)) with
    | none => none
    | some childLists => some (node.project_name :: childLists.flatten)

/-- `aux` of `_render_text_without_unicode` (`text.py` lines 128-149),
reduced to the project names it renders, in output order.  The child
comprehension (lines 143-147) recurses into a child under
`c.project_name not in cur_chain and depth <= max_depth`, with chain
`[*cur_chain, c.project_name]` and depth passed unchanged. -/
def auxAscii (tree : PackageDAG) (maxDepth : Option Nat) :
    Nat → Package → List String → Nat → Option (List String)
  | 0, _, _, _ => none
  | fuel + 1, node, curChain, depth =>
    match ((getChildren tree node.key).filter
        (fun c => !(curChain.contains c.project_name) && depthLe depth maxDepth)).mapM
        (fun c => auxAscii tree maxDepth fuel (.req c)
          (curChain ++ [c.project_name]) depth) with
    | none => none
    | some childLists => some (node.project_name :: childLists.flatten)

/-- The full ASCII text rendering, as the list of project names in
output order: the lines of `aux(p)` for every selected top-level node
(`text.py` lines 151-152). -/
def renderTextAsciiNames (tree : PackageDAG) (maxDepth : Option Nat)
    (listAll : Bool) (fuel : Nat) : Option (List String) :=
  ((textTopLevelNodes tree listAll).mapM
      (fun p => auxAscii tree maxDepth fuel (.dist p) [] 0)).map List.flatten

/-! ## Nested-JSON renderer (`_render/json_tree.py`) -/

/-- One emitted object of the nested-JSON form: `node.as_dict()` plus
the overwritten `required_version` and the recursive `dependencies`. -/
structure JsonObject where
  package_name : String
  key : String
  required_version : String
  installed_version : String
  dependencies : List JsonObject

/-- The installed version a node reports.  Modelled from the spec: §4.4
— the nested object carries the installed version; a missing edge has no
resolvable version. -/
def Package.installedVersion : Package → String
  | .dist d => d.version
  | .req r => match r.dist with
    | some d => d.version
    | none => "?"

/-- `aux` of `render_json_tree` (`json_tree.py` lines 33-50): the
object for one node, `required_version` forced to `"Any"`, dependencies
from the child comprehension of lines 44-48 — a child is expanded under
`c.project_name in cur_chain`, with chain `[c.project_name, *cur_chain]`. -/
def auxJson (tree : PackageDAG) :
    Nat → Package → List String → Option JsonObject
  | 0, _, _ => none
  | fuel + 1, node, curChain =>
    match ((getChildren tree node.key).filter
        (fun c => curChain.contains c.project_name)).mapM
        (fun c => auxJson tree fuel (.req c) (c.project_name :: curChain)) with
    | none => none
    | some deps =>
      some ⟨node.project_name, node.key, "Any", node.installedVersion, deps⟩

/-- `render_json_tree` (`json_tree.py` lines 13-52), as the list of
emitted top-level objects: sort with `reverse=True`, keep the nodes
whose key is some edge's target, and serialize each with `aux`. -/
def render_json_tree (tree : PackageDAG) (fuel : Nat) :
    Option (List JsonObject) :=
  let sorted := sortPackageDAG true tree
  let nodes := (sorted.map (fun entry => entry.1)).filter
    (fun p => (branchKeys sorted).contains p.key)
  nodes.mapM (fun p => auxJson sorted fuel (.dist p) [])

/-! ## Mermaid renderer (`_render/mermaid.py`) -/

/-- `_RESERVED_IDS` (`mermaid.py` lines 11-34). -/
def reservedIds : List String :=
  ["C4Component", "C4Container", "C4Deployment", "C4Dynamic",
   "_blank", "_parent", "_self", "_top",
   "call", "class", "classDef", "click",
   "end", "flowchart", "flowchart-v2", "graph",
   "interpolate", "linkStyle", "style", "subgraph"]

/-- The `it.count(1)` search of `mermaid_id` (`mermaid.py` lines 53-57):
the first `key_n`, n ≥ `n0`, that is not already a key of the cache,
bounded by fuel (the cache's size plus one always suffices). -/
def mermaidFreeId (cache : List (String × String)) (key : String) :
    Nat → Nat → Option String
  | 0, _ => none
  | fuel + 1, n =>
    let newId := key ++ "_" ++ toString n
    if (cache.map (fun e => e.1)).contains newId then
      mermaidFreeId cache key fuel (n + 1)
    else some newId

/-- `mermaid_id(key)` (`mermaid.py` lines 46-58) with the
`node_ids_map` cache threaded explicitly: return the cached id, or the
key itself when not reserved, or the first free `key_n` suffix. -/
def mermaid_id (cache : List (String × String)) (key : String) :
    Option (String × List (String × String)) :=
  match List.find? (fun e => e.1 = key) cache with
  | some entry => some (entry.2, cache)
  | none =>
    if !(reservedIds.contains key) then
      some (key, cache ++ [(key, key)])
    else
      match mermaidFreeId cache key (cache.length + 1) 1 with
      | none => none
      | some newId => some (newId, cache ++ [(key, newId)])

/-- `set.add`: keep one copy, first insertion position. -/
def setAdd (l : List String) (s : String) : List String :=
  if l.contains s then l else l ++ [s]

/-- The constraint string a requirement edge displays
(`req.version_spec` in `_models`).  Modelled from the spec: §3 — the
optional version constraint is carried as a predicate string such as a
range expression. -/
def VersionConstraint.displayText : VersionConstraint → String
  | .ge lo => ">=" ++ String.intercalate "." (lo.map toString)

/-- The Mermaid renderer's per-render accumulator: the id cache and the
`nodes` and `edges` sets. -/
structure MermaidState where
  cache : List (String × String)
  nodes : List String
  edges : List String

/-- The `for dependency in dependencies` loop of the forward branch of
`render_mermaid` (`mermaid.py` lines 81-89). -/
def mermaidDepsLoop (packageKey : String) :
    MermaidState → List ReqPackage → Option MermaidState
  | st, [] => some st
  | st, dep :: rest =>
    let edgeLabel := match dep.version_spec with
      | some c => c.displayText
      | none => "any"
    match mermaid_id st.cache dep.key with
    | none => none
    | some (dependencyKey, cacheNow) =>
      if dep.is_missing then
        let dependencyLabel := dep.project_name ++ "\\n(missing)"
        let nodesNow := setAdd st.nodes
          (packageKey ++ "[\"" ++ dependencyLabel ++ "\"]:::missing")
        let edgesNow := setAdd st.edges (packageKey ++ " -.-> " ++ dependencyKey)
        mermaidDepsLoop packageKey ⟨cacheNow, nodesNow, edgesNow⟩ rest
      else
        let edgesNow := setAdd st.edges
          (dependencyKey ++ " -- \"" ++ edgeLabel ++ "\" --> " ++ packageKey)
        mermaidDepsLoop packageKey ⟨cacheNow, st.nodes, edgesNow⟩ rest

/-- The `for package, dependencies in tree.items()` loop of the forward
branch of `render_mermaid` (`mermaid.py` lines 77-89), including the
line-79 id lookup by `package.version`. -/
def mermaidTreeLoop : MermaidState → PackageDAG → Option MermaidState
  | st, [] => some st
  | st, (package, dependencies) :: rest =>
    let packageLabel := package.project_name ++ "\\n" ++ package.version
    match mermaid_id st.cache package.version with
    | none => none
    | some (packageKey, cacheNow) =>
      let nodesNow := setAdd st.nodes
        (packageKey ++ "[\"" ++ packageLabel ++ "\"]")
      match mermaidDepsLoop packageKey ⟨cacheNow, nodesNow, st.edges⟩
          dependencies with
      | none => none
      | some stNext => mermaidTreeLoop stNext rest

/-- `render_mermaid` on a forward graph (`mermaid.py` lines 37-97
without the `ReversedPackageDAG` branch), as the list of emitted lines:
header, class definition, then `sorted(edges)`, then `sorted(nodes)`. -/
def render_mermaid (tree : PackageDAG) : Option (List String) :=
  match mermaidTreeLoop ⟨[], [], []⟩ tree with
  | none => none
  | some st =>
    some (["flowchart TD", "classDef missing stroke-dasharray: 5"]
      ++ sortByLe strLe st.edges ++ sortByLe strLe st.nodes)

/-! ## Graphviz renderer (`_render/graphviz.py`) -/

/-- One statement handed to the `graphviz.Digraph` being built. -/
inductive GvStatement where
  | node (id label : String) (dashed : Bool)
  | edge (src dst : String) (label : Option String) (dashed : Bool)
  deriving Repr, DecidableEq

/-- The `is_reverse` graph-building branch of `dump_graphviz`
(`graphviz.py` lines 68-78): one labeled node per package, dashed
node/edge for a missing dependency, labeled edge otherwise. -/
def graphvizBody (tree : PackageDAG) : List GvStatement :=
  tree.flatMap (fun entry =>
    let pkg := entry.1
    let pkgLabel := pkg.project_name ++ "\\n" ++ pkg.version
    GvStatement.node pkg.key pkgLabel false ::
      entry.2.flatMap (fun dep =>
        let edgeLabel := match dep.version_spec with
          | some c => c.displayText
          | none => "any"
        if dep.is_missing then
          [GvStatement.node dep.key (dep.project_name ++ "\\n(missing)") true,
           GvStatement.edge pkg.key dep.key none true]
        else
          [GvStatement.edge pkg.key dep.key (some edgeLabel) false]))

/-- `dump_graphviz` (`graphviz.py` lines 13-78) for an importable
backend, embedding the output-format gate of lines 51-54 — an
unsupported format raises `SystemExit(0)`, modelled as `Except.error 0`
carrying the exit status — and the `is_reverse` graph-building branch
for a supported one. -/
def dump_graphviz (validFormats : List String) (tree : PackageDAG)
    (outputFormat : String) : Except Nat (List GvStatement) :=
  if !(validFormats.contains outputFormat) then Except.error 0
  else Except.ok (graphvizBody tree)

/-! ## Concrete graphs used by the theorems -/

/-- Installed package A (key "a", version 1.0). -/
def dA : DistPackage := ⟨"a", "A", "1.0"⟩

/-- Installed package B (key "b", version 1.0). -/
def dB : DistPackage := ⟨"b", "B", "1.0"⟩

/-- Installed package C (key "c", version 1.0). -/
def dC : DistPackage := ⟨"c", "C", "1.0"⟩

/-- Unconstrained resolved requirement on A. -/
def rA : ReqPackage := ⟨"a", "A", none, some dA⟩

/-- Unconstrained resolved requirement on B. -/
def rB : ReqPackage := ⟨"b", "B", none, some dB⟩

/-- Unconstrained resolved requirement on C. -/
def rC : ReqPackage := ⟨"c", "C", none, some dC⟩

/-- The three-cycle A→B→C→A. -/
def abcTree : PackageDAG := [(dA, [rB]), (dB, [rC]), (dC, [rA])]

/-- The acyclic graph {A requires B, B requires nothing}. -/
def abTree : PackageDAG := [(dA, [rB]), (dB, [])]

/-- The two-cycle A→B→A. -/
def cycTree : PackageDAG := [(dA, [rB]), (dB, [rA])]

/-- Installed package P. -/
def pP : DistPackage := ⟨"p", "P", "1.0"⟩

/-- Q installed at version 1.0. -/
def q10 : DistPackage := ⟨"q", "Q", "1.0"⟩

/-- Q installed at version 2.5. -/
def q25 : DistPackage := ⟨"q", "Q", "2.5"⟩

/-- P's requirement "Q >= 2.0" resolved against Q at 1.0 (conflicting). -/
def reqQbad : ReqPackage := ⟨"q", "Q", some (.ge [2, 0]), some q10⟩

/-- P's requirement "Q >= 2.0" resolved against Q at 2.5 (satisfied). -/
def reqQsat : ReqPackage := ⟨"q", "Q", some (.ge [2, 0]), some q25⟩

/-- P requires Q ">=2.0" with Q installed at 1.0. -/
def conflictTree1 : PackageDAG := [(pP, [reqQbad]), (q10, [])]

/-- P requires Q ">=2.0" with Q installed at 2.5. -/
def conflictTree2 : PackageDAG := [(pP, [reqQsat]), (q25, [])]

/-- A's requirement "B >= 2.0" against B at 1.0 (conflicting). -/
def rBconf : ReqPackage := ⟨"b", "B", some (.ge [2, 0]), some dB⟩

/-- B's requirement "A >= 2.0" against A at 1.0 (conflicting). -/
def rAconf : ReqPackage := ⟨"a", "A", some (.ge [2, 0]), some dA⟩

/-- A two-cycle in which both edges conflict: `conflicting_deps` as
written collects nothing on it, `cyclic_deps` reports two cycles. -/
def valTree : PackageDAG := [(dA, [rBconf]), (dB, [rAconf])]

/-- Root package named "P". -/
def dP : DistPackage := ⟨"x1", "P", "1.0"⟩

/-- Package with key "x2" but display name "Q". -/
def xQ : DistPackage := ⟨"x2", "Q", "1.0"⟩

/-- Requirement on `xQ`. -/
def rX : ReqPackage := ⟨"x2", "Q", none, some xQ⟩

/-- A missing requirement whose display name "P" repeats the root's. -/
def rZ : ReqPackage := ⟨"zz", "P", none, none⟩

/-- P requires Q, Q requires an unresolved package also named "P": the
name "P" repeats along the root-to-leaf path. -/
def pqTree : PackageDAG := [(dP, [rX]), (xQ, [rZ])]

/-- Package whose key and name are the Mermaid reserved word "end". -/
def endPkg : DistPackage := ⟨"end", "end", "2.0"⟩

/-- An ordinary package that depends on `endPkg`. -/
def fooPkg : DistPackage := ⟨"foo", "foo", "1.0"⟩

/-- The resolved requirement of `fooPkg` on `endPkg`. -/
def reqEnd : ReqPackage := ⟨"end", "end", none, some endPkg⟩

/-- foo requires end; end requires nothing. -/
def merTree : PackageDAG := [(fooPkg, [reqEnd]), (endPkg, [])]

/-! ## C1-C4, C9, C10: direct evaluations of the embedded code -/

/-- C1: the claim says `conflicting_deps` adds (node, edge) exactly when
`isConflicting(edge)` is true, so P requiring Q ">=2.0" against
installed Q 1.0 should appear and against installed Q 2.5 should not.
The code (`_validate.py` line 43) collects edges with
`not req.is_conflicting()`: the conflicting configuration yields an
empty result and the satisfied configuration yields P with the Q edge —
the exact inverse. -/
theorem conflicting_deps_inverted :
    reqQbad.is_conflicting = true ∧
    conflicting_deps conflictTree1 = [] ∧
    reqQsat.is_conflicting = false ∧
    conflicting_deps conflictTree2 = [(pP, [reqQsat])] := by decide

/-- C2: the claim says the text renderer's top-level nodes are every
node when "list all" is requested and only never-required nodes
otherwise.  The code (`text.py` lines 32-33) filters under
`if list_all:`, the exact inverse: on {A requires B} it keeps only A
when list-all is requested and keeps both A and B otherwise.  (The
consequent about default options happens to hold: A is top-level with B
nested beneath it.) -/
theorem render_text_top_level_inverted :
    textTopLevelNodes abTree true = [dA] ∧
    (sortPackageDAG false abTree).map (fun entry => entry.1) = [dA, dB] ∧
    textTopLevelNodes abTree false = [dA, dB] ∧
    renderTextAsciiNames abTree none true 5 = some ["A", "B"] := by decide

/-- C3: the claim says deduplication returns every first occurrence —
N distinct normalized names give N retained records.  The code
(`_discovery.py` lines 67-69 and 87) never appends first occurrences to
the output and returns the keys of the duplicates dictionary instead:
two distinct valid records yield the empty list, and a duplicated name
yields only its first-seen record. -/
theorem filter_valid_distributions_wrong_return :
    filter_valid_distributions true
      [⟨"alpha", "1", true⟩, ⟨"beta", "1", true⟩] = [] ∧
    filter_valid_distributions true
      [⟨"alpha", "1", true⟩, ⟨"Alpha", "2", true⟩, ⟨"beta", "1", true⟩]
      = [⟨"alpha", "1", true⟩] := by decide

/-- C4: the claim says the conflict warning is emitted exactly when the
conflict result is non-empty and the cycle warning renders the cycle
list.  On a two-cycle whose edges all conflict the conflict result is
empty (C1's inversion) and two cycles exist, yet `validate`
(`_validate.py` lines 19-26) emits the conflict warning (it tests
`if not conflicts`) and hands the cycle warning's renderer `conflicts`
instead of `cycles`. -/
theorem validate_emissions_wrong :
    conflicting_deps valTree = [] ∧
    (cyclic_deps valTree).map (fun cyc => cyc.map Package.key)
      = [["a", "b", "a"], ["b", "a", "b"]] ∧
    validate true valTree =
      [("Possibly conflicting dependencies found",
        WarningPayload.conflictsPayload []),
       ("Cyclic dependencies found",
        WarningPayload.conflictsPayload [])] := by decide

/-- C9: the claim says a package whose key is the reserved word "end" is
declared with node id "end_1" and every reference reuses it.  The
forward branch (`mermaid.py` line 79) computes the declaration id from
`package.version`, so the "end" package is declared as `2.0[...]` while
the edge referencing it (line 89, itself reversed) uses `end_1`: the
declaration id and the reference id disagree. -/
theorem render_mermaid_end_bug :
    render_mermaid merTree = some
      ["flowchart TD", "classDef missing stroke-dasharray: 5",
       "end_1 -- \"any\" --> 1.0",
       "1.0[\"foo\\n1.0\"]", "2.0[\"end\\n2.0\"]"] ∧
    "end_1[\"end\\n2.0\"]" ∉
      ["flowchart TD", "classDef missing stroke-dasharray: 5",
       "end_1 -- \"any\" --> 1.0",
       "1.0[\"foo\\n1.0\"]", "2.0[\"end\\n2.0\"]"] := by decide

/-- C10: the claim says an unsupported Graphviz output format aborts the
render path before producing output with a non-zero outcome.  The code
(`graphviz.py` line 54) raises `SystemExit(0)`: the abort happens before
any graph statement is built, but the process outcome is zero, not
non-zero. -/
theorem dump_graphviz_exit_zero :
    dump_graphviz ["canon", "dot", "png"] merTree "bogus" = Except.error 0 ∧
    dump_graphviz ["canon", "dot", "png"] merTree "dot" = Except.ok
      [GvStatement.node "foo" "foo\\n1.0" false,
       GvStatement.edge "foo" "end" (some "any") false,
       GvStatement.node "end" "end\\n2.0" false] := ⟨rfl, rfl⟩

/-! ## C6: the Unicode descent guard -/

/-- The descent rule as the specification states it for the text
renderer — descend into a child only when its name is NOT already in the
current chain AND the depth does not exceed the maximum — over the
Unicode traversal's chain/depth bookkeeping.  Stated from the spec's
words, for comparison with `auxUnicode`. -/
def auxUnicodeClaimed (tree : PackageDAG) (maxDepth : Option Nat) :
    Nat → Package → List String → Nat → Option (List String)
  | 0, _, _, _ => none
  | fuel + 1, node, curChain, depth =>
    match ((getChildren tree node.key).filter
        (fun c => !(curChain.contains c.project_name) && depthLe depth maxDepth)).mapM
        (fun c => auxUnicodeClaimed tree maxDepth fuel (.req c)
          (curChain ++ [node.project_name]) (depth + 1)) with
    | none => none
    | some childLists => some (node.project_name :: childLists.flatten)

/-- C6: the claim says both text modes descend into a child exactly when
its name is not already in the ancestor chain and the depth is within
the maximum.  The Unicode mode's guard (`text.py` line 107) is
`c.project_name in cur_chain or depth <= max_depth`: on a graph where
the name "P" repeats along the path, with maximum depth 0, the repeated
child is descended into precisely because its name IS in the chain (its
depth 1 exceeds the maximum), whereas the claimed guard stops there. -/
theorem unicode_descend_guard_inverted :
    auxUnicode pqTree (some 0) 9 (.dist dP) [] 0 = some ["P", "Q", "P"] ∧
    auxUnicode pqTree (some 0) 8 (.req rX) ["P"] 1 = some ["Q", "P"] ∧
    auxUnicodeClaimed pqTree (some 0) 9 (.dist dP) [] 0 = some ["P", "Q"] := by
  decide

/-! ## C8: the Unicode traversal does not terminate on a cycle -/

/-- On the two-cycle A→B→A with unbounded maximum depth, the Unicode
`aux` recurses forever: every fuel bound is exhausted, whichever of the
two nodes the traversal stands on and whatever chain and depth it has
accumulated. -/
theorem auxUnicode_cycTree_none :
    ∀ (fuel : Nat) (node : Package), node.key = "a" ∨ node.key = "b" →
      ∀ (curChain : List String) (depth : Nat),
        auxUnicode cycTree none fuel node curChain depth = none := by
  intro fuel
  induction fuel with
  | zero => intro node _ curChain depth; rfl
  | succ f ih =>
    intro node hk curChain depth
    cases hk with
    | inl ha =>
      have hch : getChildren cycTree node.key = [rB] := by rw [ha]; rfl
      have hsub := ih (.req rB) (Or.inr rfl)
        (curChain ++ [node.project_name]) (depth + 1)
      simp [auxUnicode, hch, depthLe, List.mapM.loop, hsub]
    | inr hb =>
      have hch : getChildren cycTree node.key = [rA] := by rw [hb]; rfl
      have hsub := ih (.req rA) (Or.inl rfl)
        (curChain ++ [node.project_name]) (depth + 1)
      simp [auxUnicode, hch, depthLe, List.mapM.loop, hsub]

/-- C8: the claim says every core traversal terminates on every finite
graph, the text renderer's expansion being bounded by its chain and
depth guards even with unbounded maximum depth.  The Unicode guard
(`text.py` line 107) lets every descent through when the maximum depth
is unbounded, so on the cyclic graph A→B→A the traversal started at A
exhausts any amount of fuel without producing output. -/
theorem unicode_render_nonterminating :
    ∀ fuel : Nat, auxUnicode cycTree none fuel (.dist dA) [] 0 = none :=
  fun fuel => auxUnicode_cycTree_none fuel (.dist dA) (Or.inl rfl) [] 0

/-! ## C7: the nested-JSON child-expansion guard -/

/-- A successful `auxJson` call emits the object of the node it was
called on: key and display name are the node's own. -/
theorem auxJson_key_name (tree : PackageDAG) (fuel : Nat) (node : Package)
    (curChain : List String) (obj : JsonObject)
    (h : auxJson tree fuel node curChain = some obj) :
    obj.key = node.key ∧ obj.package_name = node.project_name := by
  cases fuel with
  | zero => simp [auxJson] at h
  | succ f =>
    simp only [auxJson] at h
    cases hm : ((getChildren tree node.key).filter
        (fun c => curChain.contains c.project_name)).mapM
        (fun c => auxJson tree f (.req c) (c.project_name :: curChain)) with
    | none => rw [hm] at h; simp at h
    | some deps =>
      rw [hm] at h
      cases h
      exact ⟨rfl, rfl⟩

/-- If every successful application of `f` carries `g1` of the input to
`g2` of the output, a successful `mapM f` carries the `g1`-image of the
list to the `g2`-image of the result, in order. -/
theorem mapM_map_eq {α β : Type} (g1 : α → String) (g2 : β → String)
    (f : α → Option β) (hf : ∀ a b, f a = some b → g2 b = g1 a) :
    ∀ (l : List α) (ys : List β), l.mapM f = some ys → ys.map g2 = l.map g1 := by
  intro l
  induction l with
  | nil =>
    intro ys h
    simp only [List.mapM_nil] at h
    cases h
    rfl
  | cons a rest ih =>
    intro ys h
    rw [List.mapM_cons] at h
    cases hfa : f a with
    | none => rw [hfa] at h; simp at h
    | some b =>
      rw [hfa] at h
      cases hml : rest.mapM f with
      | none => rw [hml] at h; simp at h
      | some bs =>
        rw [hml] at h
        simp at h
        subst h
        simp only [List.map_cons]
        rw [hf a b hfa, ih bs hml]

/-- C7: in the nested-JSON renderer a child is expanded into a nested
dependency object exactly when its project name is already present in
the ancestor-name chain: the dependencies array of any successfully
emitted object corresponds, key for key and name for name and in order,
to the children whose name the chain already contains (`json_tree.py`
line 47). -/
theorem json_child_expansion (tree : PackageDAG) (fuel : Nat)
    (node : Package) (curChain : List String) {obj : JsonObject}
    (h : auxJson tree (fuel + 1) node curChain = some obj) :
    obj.dependencies.map JsonObject.key
      = ((getChildren tree node.key).filter
          (fun c => curChain.contains c.project_name)).map ReqPackage.key ∧
    obj.dependencies.map JsonObject.package_name
      = ((getChildren tree node.key).filter
          (fun c => curChain.contains c.project_name)).map ReqPackage.project_name := by
  simp only [auxJson] at h
  cases hm : ((getChildren tree node.key).filter
      (fun c => curChain.contains c.project_name)).mapM
      (fun c => auxJson tree fuel (.req c) (c.project_name :: curChain)) with
  | none => rw [hm] at h; simp at h
  | some deps =>
    rw [hm] at h
    cases h
    constructor
    · exact mapM_map_eq ReqPackage.key JsonObject.key _
        (fun c b hb => (auxJson_key_name tree fuel (.req c) _ b hb).1) _ deps hm
    · exact mapM_map_eq ReqPackage.project_name JsonObject.package_name _
        (fun c b hb => (auxJson_key_name tree fuel (.req c) _ b hb).2) _ deps hm

/-- C7 witness: on {A requires B} with chain ["B"], the child B is in
the chain and is expanded, matching the guard. -/
theorem json_child_expansion_witness :
    ([⟨"B", "b", "Any", "1.0", []⟩] : List JsonObject).map JsonObject.key
      = ((getChildren abTree (Package.dist dA).key).filter
          (fun c => (["B"] : List String).contains c.project_name)).map
        ReqPackage.key ∧
    ([⟨"B", "b", "Any", "1.0", []⟩] : List JsonObject).map
        JsonObject.package_name
      = ((getChildren abTree (Package.dist dA).key).filter
          (fun c => (["B"] : List String).contains c.project_name)).map
        ReqPackage.project_name :=
  json_child_expansion abTree 1 (.dist dA) ["B"] rfl

/-! ## C5: cycle detection

Soundness of the DFS: a successful search witnesses a directed path of
requirement edges back to the root, so on an acyclic graph every search
fails and `cyclic_deps` returns the empty list. -/

/-- One requirement edge between keys: the node with key `k` declares a
requirement whose target key is `m`. -/
def EdgeRel (tree : PackageDAG) (k m : String) : Prop :=
  ∃ rs, getReqs tree k = some rs ∧ ∃ r ∈ rs, ReqPackage.key r = m

/-- Reachability along requirement edges (reflexive-transitive). -/
inductive Reach (tree : PackageDAG) : String → String → Prop
  | refl (k : String) : Reach tree k k
  | step {k m j : String} : EdgeRel tree k m → Reach tree m j → Reach tree k j

/-- No directed cycle: no edge starts a path back to its own source. -/
def Acyclic (tree : PackageDAG) : Prop :=
  ∀ k m, EdgeRel tree k m → ¬Reach tree m k

/-- A successful `dfsLoop` pass found its success through one of the
requirements it iterates over, provided every successful nested search
reaches the root. -/
theorem dfsLoop_true_reach (tree : PackageDAG) (root : DistPackage)
    (step : Package → List String → List Package →
      Option (Bool × List String × List Package))
    (hstep : ∀ cur v cd v' c', step cur v cd = some (true, v', c') →
      Reach tree cur.key root.key) :
    ∀ (reqs : List ReqPackage) (visited : List String) (cdeps : List Package)
      (v : List String) (c : List Package),
      dfsLoop step reqs visited cdeps = some (true, v, c) →
      ∃ r ∈ reqs, Reach tree (ReqPackage.key r) root.key := by
  intro reqs
  induction reqs with
  | nil => intro visited cdeps v c h; simp [dfsLoop] at h
  | cons r rest ih =>
    intro visited cdeps v c h
    simp only [dfsLoop] at h
    cases hs : step (.req r) visited cdeps with
    | none => rw [hs] at h; simp at h
    | some res =>
      obtain ⟨b, v1, c1⟩ := res
      rw [hs] at h
      cases b with
      | true =>
        exact ⟨r, List.mem_cons_self r rest, hstep _ _ _ _ _ hs⟩
      | false =>
        obtain ⟨r', hmem, hr⟩ := ih v1 c1 v c h
        exact ⟨r', List.mem_cons_of_mem _ hmem, hr⟩

/-- Soundness of `dfs`: a search that returns `True` stood on a key from
which the root's key is reachable along requirement edges. -/
theorem dfs_true_reach (tree : PackageDAG) :
    ∀ (fuel : Nat) (root : DistPackage) (current : Package)
      (visited : List String) (cdeps : List Package)
      (v : List String) (c : List Package),
      dfs tree fuel root current visited cdeps = some (true, v, c) →
      Reach tree current.key root.key := by
  intro fuel
  induction fuel with
  | zero => intro root current visited cdeps v c h; simp [dfs] at h
  | succ f ih =>
    intro root current visited cdeps v c h
    simp only [dfs] at h
    by_cases hv : current.key ∈ visited
    · rw [if_pos hv] at h
      by_cases hr : current.key = root.key
      · rw [hr]
        exact Reach.refl _
      · rw [if_neg hr] at h
        simp at h
    · rw [if_neg hv] at h
      cases hn : getNodeAsParent tree current.key with
      | none => rw [hn] at h; simp at h
      | some nd =>
        rw [hn] at h
        cases hq : getReqs tree current.key with
        | none => rw [hq] at h; simp at h
        | some rs =>
          rw [hq] at h
          cases rs with
          | nil => simp at h
          | cons req reqs =>
            dsimp only at h
            cases hl : dfsLoop (dfs tree f root) (req :: reqs)
                (visited ++ [current.key]) cdeps with
            | none => rw [hl] at h; simp at h
            | some res =>
              obtain ⟨b, v1, c1⟩ := res
              rw [hl] at h
              cases b with
              | false => simp at h
              | true =>
                obtain ⟨r, hmem, hreach⟩ := dfsLoop_true_reach tree root
                  (dfs tree f root)
                  (fun cur vv cd v' c' hs => ih root cur vv cd v' c' hs)
                  (req :: reqs) _ _ _ _ hl
                exact Reach.step ⟨req :: reqs, hq, r, hmem, rfl⟩ hreach

/-- C5: `cyclic_deps` returns the empty list on every acyclic graph,
and on the three-cycle A→B→C→A the searches rooted at A, B and C each
report one cycle containing all three packages, rotated to start and
end at the respective root. -/
theorem cyclic_deps_spec :
    (∀ tree : PackageDAG, Acyclic tree → cyclic_deps tree = []) ∧
    (cyclic_deps abcTree).map (fun cyc => cyc.map Package.key)
      = [["a", "b", "c", "a"], ["b", "c", "a", "b"], ["c", "a", "b", "c"]] := by
  constructor
  · intro tree hac
    apply List.filterMap_eq_nil_iff.mpr
    intro entry hmem
    cases hd : dfs tree (cyclicFuel tree) entry.1 (.dist entry.1) [] [] with
    | none => simp [hd]
    | some res =>
      obtain ⟨b, v, c⟩ := res
      cases b with
      | false => simp [hd]
      | true =>
        exfalso
        rw [cyclicFuel] at hd
        simp only [dfs] at hd
        rw [if_neg (List.not_mem_nil _)] at hd
        cases hn : getNodeAsParent tree (Package.dist entry.1).key with
        | none => rw [hn] at hd; simp at hd
        | some nd =>
          rw [hn] at hd
          cases hq : getReqs tree (Package.dist entry.1).key with
          | none => rw [hq] at hd; simp at hd
          | some rs =>
            rw [hq] at hd
            cases rs with
            | nil => simp at hd
            | cons req reqs =>
              dsimp only at hd
              cases hl : dfsLoop (dfs tree tree.length entry.1) (req :: reqs)
                  ([] ++ [(Package.dist entry.1).key]) [] with
              | none => rw [hl] at hd; simp at hd
              | some res1 =>
                obtain ⟨b1, v1, c1⟩ := res1
                rw [hl] at hd
                cases b1 with
                | false => simp at hd
                | true =>
                  obtain ⟨r, hrmem, hreach⟩ := dfsLoop_true_reach tree entry.1
                    (dfs tree tree.length entry.1)
                    (fun cur vv cd v' c' hs =>
                      dfs_true_reach tree tree.length entry.1 cur vv cd v' c' hs)
                    (req :: reqs) _ _ _ _ hl
                  exact hac entry.1.key r.key ⟨req :: reqs, hq, r, hrmem, rfl⟩ hreach
  · decide

/-- The only requirement edge of {A requires B} goes from "a" to "b". -/
theorem abTree_edge_char (k m : String) (hE : EdgeRel abTree k m) :
    k = "a" ∧ m = "b" := by
  obtain ⟨rs, hrs, r, hmem, hkey⟩ := hE
  by_cases h1 : ("a" : String) = k
  · subst h1
    have hrb : rs = [rB] := by
      rw [show getReqs abTree "a" = some [rB] from rfl] at hrs
      exact (Option.some.inj hrs).symm
    subst hrb
    simp only [List.mem_singleton] at hmem
    subst hmem
    exact ⟨rfl, hkey.symm ▸ rfl⟩
  · by_cases h2 : ("b" : String) = k
    · subst h2
      have hnil : rs = [] := by
        rw [show getReqs abTree "b" = some [] from rfl] at hrs
        exact (Option.some.inj hrs).symm
      subst hnil
      simp at hmem
    · simp [getReqs, abTree, dA, dB, List.find?, h1, h2] at hrs

/-- Nothing is reachable from "b" in {A requires B} except "b". -/
theorem abTree_reach_from_b (x y : String) (h : Reach abTree x y) :
    x = "b" → y = "b" := by
  induction h with
  | refl k => intro hx; exact hx
  | step hE hR ihR =>
    intro hx
    subst hx
    exact absurd (abTree_edge_char _ _ hE).1 (by decide)

/-- {A requires B, B requires nothing} has no directed cycle. -/
theorem abTree_acyclic : Acyclic abTree := by
  intro k m hE hR
  obtain ⟨hk, hm⟩ := abTree_edge_char k m hE
  subst hk hm
  exact absurd (abTree_reach_from_b _ _ hR rfl) (by decide)

/-- C5 witness: on the concrete acyclic graph {A requires B},
`cyclic_deps` is empty. -/
theorem cyclic_deps_spec_witness : cyclic_deps abTree = [] :=
  cyclic_deps_spec.1 abTree abTree_acyclic

end Pipdeptree
